import Mathlib

/-! # Chat session loop of `main.go`

A shallow embedding of the command-line chat client (`src/main.go`) and the
properties of its transcript handling.

Modelling conventions.

* A Go `string` is a byte sequence.  It is represented by a Lean `String` whose
  characters each stand for one byte, so ASCII text is represented by itself,
  `len` is the number of characters and slicing counts characters.
* A Go `error` is represented by its message; `Option String` is a value that
  may be `nil`.
* Everything `main` obtains from outside the process is a parameter: the
  environment (`os.Getenv`), the content of standard input, and for each loop
  iteration an `Outcome` holding what `json.Marshal`, `http.NewRequest`,
  `client.Do`, `ioutil.ReadAll` and `json.Unmarshal` returned in that iteration.
* Everything `main` does to the outside is recorded in the `State`: the writes
  to standard output, the calls of `client.Do`, the request values built and
  the number of reads from standard input.
* A run-time panic is an explicit result (`Flow.panic`, `Exit.panicked`).
-/

namespace AzureChat

/-! ## Data model (`main.go` lines 13-27) -/

/-- Go struct `ChatMessage`. -/
structure ChatMessage where
  Role : String
  Content : String
deriving DecidableEq, Repr

/-- Go struct `ChatRequest`. -/
structure ChatRequest where
  Model : String
  Messages : List ChatMessage
deriving DecidableEq, Repr

/-- One element of the anonymous struct slice `ChatResponse.Choices`. -/
structure Choice where
  Message : ChatMessage
deriving DecidableEq, Repr

/-- Go struct `ChatResponse`. -/
structure ChatResponse where
  Choices : List Choice
deriving DecidableEq, Repr

/-! ## The outside world -/

/-- What `client.Do` hands back when it returns no error: the status code and
what `ioutil.ReadAll(resp.Body)` returns (the bytes read and the error). -/
structure Response where
  StatusCode : Int
  body : String
  readErr : Option String
deriving DecidableEq, Repr

/-- What the library calls of one loop iteration return. -/
structure Outcome where
  /-- The result of `json.Marshal(requestBody)`, line 68. -/
  marshal : Except String String
  /-- The error of `http.NewRequest("POST", url, ...)`, line 75. -/
  newRequest : Option String
  /-- The result of `client.Do(req)`, line 84. -/
  clientDo : Except String Response
  /-- The result of `json.Unmarshal(body, &chatResponse)`, line 105. -/
  unmarshal : Except String ChatResponse

/-- One invocation of `client.Do`: the request built on lines 75-81. -/
structure HttpCall where
  Method : String
  URL : String
  ContentType : String
  ApiKey : String
  Body : String
deriving DecidableEq, Repr

/-- The local variables of `main` that are fixed before the loop starts. -/
structure Config where
  endpoint : String
  apiKey : String
  model : String
  url : String
deriving DecidableEq, Repr

/-- The variable `chatHistory` together with the record of the effects of the
program: `stdout` holds one entry per `fmt.Print*` call, `calls` one entry per
`client.Do` call, `built` one entry per `requestBody` value constructed (lines
64-67) and `reads` counts the calls of `reader.ReadString`. -/
structure State where
  chatHistory : List ChatMessage
  stdout : List String
  calls : List HttpCall
  built : List ChatRequest
  reads : Nat
deriving DecidableEq, Repr

/-- How one loop iteration ends: `next` is reaching the end of the body or a
`continue`, `stop` is the `break` of line 57, `panic` is a run-time panic. -/
inductive Flow where
  | next
  | stop
  | panic
deriving DecidableEq, Repr

/-- How `main` ends. -/
inductive Exit where
  | returned
  | panicked
deriving DecidableEq, Repr

/-! ## Library operations -/

/-- Go `len(s)` for a string. -/
def len (s : String) : Int := s.length

/-- Go slice expression `s[:hi]`: it panics (here `none`) unless
`0 <= hi <= len(s)`. -/
def sliceTo (s : String) (hi : Int) : Option String :=
  if 0 ≤ hi ∧ hi ≤ len s then some ⟨s.data.take hi.toNat⟩ else none

/-- Splitting at the first newline: the data up to and including the newline
and the data after it; when there is no newline everything is returned. -/
def readStringAux : List Char → List Char × List Char
  | [] => ([], [])
  | c :: cs =>
    if c = '\n' then ([c], cs)
    else ((c :: (readStringAux cs).1), (readStringAux cs).2)

/-- The `reader.ReadString('\n')` call of line 52 on a reader that still holds
`stdin`: the string returned and what is left to read.  At the end of the
stream the data read so far is returned (with an error that line 52 drops). -/
def readString (stdin : String) : String × String :=
  (⟨(readStringAux stdin.data).1⟩, ⟨(readStringAux stdin.data).2⟩)

/-- Function `fmt.Print` with one string operand. -/
def State.print (st : State) (s : String) : State :=
  { st with stdout := st.stdout ++ [s] }

/-- Function `fmt.Println` with one string operand. -/
def State.println (st : State) (s : String) : State :=
  st.print (s ++ "\n")

/-- Function `fmt.Println` with a string and an error operand: the operands are
separated by a space. -/
def State.printlnErr (st : State) (s : String) (err : String) : State :=
  st.print (s ++ " " ++ err ++ "\n")

/-! ## The program -/

/-- The system message of line 45. -/
def systemMessage : ChatMessage :=
  { Role := "system", Content := "You are a helpful assistant." }

/-- The diagnostic of line 36. -/
def configDiagnostic : String :=
  "Please set AZURE_OPENAI_ENDPOINT, AZURE_OPENAI_API_KEY, and AZURE_OPENAI_MODEL environment variables."

/-- The banner of line 48. -/
def banner : String :=
  "Start chatting with the Azure OpenAI model (type \x27exit\x27 to quit):"

/-- The `fmt.Sprintf` of line 41. -/
def mkURL (endpoint model : String) : String :=
  endpoint ++ "/openai/deployments/" ++ model ++
    "/chat/completions?api-version=2023-06-01-preview"

/-- Lines 31-33 and 41. -/
def loadConfig (env : String → String) : Config :=
  { endpoint := env "AZURE_OPENAI_ENDPOINT"
    apiKey := env "AZURE_OPENAI_API_KEY"
    model := env "AZURE_OPENAI_MODEL"
    url := mkURL (env "AZURE_OPENAI_ENDPOINT") (env "AZURE_OPENAI_MODEL") }

/-- The state when the loop is entered (lines 44-48). -/
def initState : State :=
  { chatHistory := [systemMessage]
    stdout := [banner ++ "\n"]
    calls := []
    built := []
    reads := 0 }

/-- Lines 53-119 of the loop body: everything after `reader.ReadString`
returned `userInput`.  The deferred `resp.Body.Close()` of line 89 runs when
`main` returns and touches nothing that is modelled. -/
def turn (cfg : Config) (st : State) (userInput : String) (w : Outcome) :
    Flow × State :=
  match sliceTo userInput (len userInput - 1) with
  | none => (Flow.panic, st)
  | some userInput =>
    if userInput = "exit" then
      (Flow.stop, st.println "Exiting chat. Goodbye!")
    else
      let userMessage : ChatMessage := { Role := "user", Content := userInput }
      let st := { st with chatHistory := st.chatHistory ++ [userMessage] }
      let requestBody : ChatRequest := { Model := cfg.model, Messages := st.chatHistory }
      let st := { st with built := st.built ++ [requestBody] }
      match w.marshal with
      | .error err => (Flow.next, st.printlnErr "Error creating request payload:" err)
      | .ok jsonBody =>
        match w.newRequest with
        | some err => (Flow.next, st.printlnErr "Error creating request:" err)
        | none =>
          let req : HttpCall :=
            { Method := "POST", URL := cfg.url, ContentType := "application/json"
              ApiKey := cfg.apiKey, Body := jsonBody }
          let st := { st with calls := st.calls ++ [req] }
          match w.clientDo with
          | .error err => (Flow.next, st.printlnErr "Error making API request:" err)
          | .ok resp =>
            if resp.StatusCode ≠ 200 then
              (Flow.next, st.print ("API request failed with status " ++
                toString resp.StatusCode ++ ": " ++ resp.body ++ "\n"))
            else
              match resp.readErr with
              | some err => (Flow.next, st.printlnErr "Error reading response body:" err)
              | none =>
                match w.unmarshal with
                | .error err =>
                  (Flow.next, st.printlnErr "Error parsing response JSON:" err)
                | .ok chatResponse =>
                  match chatResponse.Choices with
                  | c :: _ =>
                    let assistantMessage := c.Message
                    let st := st.print ("Assistant: " ++ assistantMessage.Content ++ "\n")
                    (Flow.next, { st with chatHistory := st.chatHistory ++ [assistantMessage] })
                  | [] => (Flow.next, st.println "No response from the assistant.")

/-- One whole loop iteration (lines 51-119) with the string returned by
`reader.ReadString` as a parameter. -/
def iteration (cfg : Config) (st : State) (userInput : String) (w : Outcome) :
    Flow × State :=
  turn cfg { st.print "You: " with reads := st.reads + 1 } userInput w

/-- The `for` loop of lines 50-120.  Iteration `i` reads from what is left of
standard input and uses the outcome `world i`.  The result is `none` when
`fuel` iterations did not end the loop. -/
def loop (cfg : Config) (world : Nat → Outcome) :
    Nat → Nat → String → State → Option (Exit × State)
  | 0, _, _, _ => none
  | fuel + 1, i, stdin, st =>
    match iteration cfg st (readString stdin).1 (world i) with
    | (Flow.next, st') => loop cfg world fuel (i + 1) (readString stdin).2 st'
    | (Flow.stop, st') => some (Exit.returned, st')
    | (Flow.panic, st') => some (Exit.panicked, st')

/-- Function `main`.  Every iteration that does not end the loop consumes at
least one byte of standard input, so `stdin.length + 1` iterations suffice
(`main_total`). -/
def main (env : String → String) (stdin : String) (world : Nat → Outcome) :
    Option (Exit × State) :=
  let cfg := loadConfig env
  if cfg.endpoint = "" ∨ cfg.apiKey = "" ∨ cfg.model = "" then
    some (Exit.returned,
      { chatHistory := [], stdout := [configDiagnostic ++ "\n"], calls := [], built := []
        reads := 0 })
  else
    loop cfg world (stdin.length + 1) 0 stdin initState

/-- A sequence of loop iterations given by the strings read and the outcomes:
the iterations are run in order until one of them ends the loop. -/
def turns (cfg : Config) : State → List (String × Outcome) → Flow × State
  | st, [] => (Flow.next, st)
  | st, (userInput, w) :: rest =>
    match iteration cfg st userInput w with
    | (Flow.next, st') => turns cfg st' rest
    | r => r

/-! ## Predicates and sample data used in the statements -/

/-- The turn gets a response that is consumed: serialisation and request
creation succeed, the call returns status 200, the body is read without error
and decodes to `r`. -/
def Outcome.Parsed (w : Outcome) (r : ChatResponse) : Prop :=
  (∃ jsonBody, w.marshal = .ok jsonBody) ∧ w.newRequest = none ∧
  (∃ resp, w.clientDo = .ok resp ∧ resp.StatusCode = 200 ∧ resp.readErr = none) ∧
  w.unmarshal = .ok r

/-- The turn fails at some stage: request serialisation, request creation,
transport, a status other than 200, reading the body, or decoding the body. -/
def Outcome.Fails (w : Outcome) : Prop :=
  (∃ err, w.marshal = .error err) ∨ (∃ err, w.newRequest = some err) ∨
  (∃ err, w.clientDo = .error err) ∨
  (∃ resp, w.clientDo = .ok resp ∧ resp.StatusCode ≠ 200) ∨
  (∃ resp err, w.clientDo = .ok resp ∧ resp.readErr = some err) ∨
  (∃ err, w.unmarshal = .error err)

/-- The roles of the data model of the specification. -/
def ValidRole (role : String) : Prop :=
  role = "system" ∨ role = "user" ∨ role = "assistant"

instance (role : String) : Decidable (ValidRole role) := by
  unfold ValidRole; infer_instance

/-- The user message appended on line 61. -/
def userMessage (s : String) : ChatMessage := { Role := "user", Content := s }

/-- An outcome in which every stage succeeds and the response decodes to
`r`; `body` is the response body. -/
def replyOutcome (body : String) (r : ChatResponse) : Outcome :=
  { marshal := .ok "request"
    newRequest := none
    clientDo := .ok { StatusCode := 200, body := body, readErr := none }
    unmarshal := .ok r }

/-- The response body of the example of the specification. -/
def hiBody : String :=
  "\x7b\"choices\":[\x7b\"message\":\x7b\"role\":\"assistant\",\"content\":\"Hi\"\x7d\x7d]\x7d"

/-- The outcome of the example of the specification: status 200 with `hiBody`,
which decodes to one choice holding the assistant message `Hi`. -/
def hiOutcome : Outcome :=
  replyOutcome hiBody { Choices := [{ Message := { Role := "assistant", Content := "Hi" } }] }

/-- An outcome whose call fails with status 500 and body `server error`. -/
def serverErrorOutcome : Outcome :=
  { marshal := .ok "request"
    newRequest := none
    clientDo := .ok { StatusCode := 500, body := "server error", readErr := none }
    unmarshal := .error "unexpected end of JSON input" }

/-- A response whose only choice carries a message with role `tool`. -/
def toolOutcome : Outcome :=
  replyOutcome "" { Choices := [{ Message := { Role := "tool", Content := "Hi" } }] }

/-- A configuration used in examples. -/
def sampleConfig : Config :=
  { endpoint := "https://example.openai.azure.com"
    apiKey := "secret"
    model := "gpt-4"
    url := mkURL "https://example.openai.azure.com" "gpt-4" }

/-- An environment that sets the three variables the program reads. -/
def azureEnv (name : String) : String :=
  if name = "AZURE_OPENAI_ENDPOINT" then "https://example.openai.azure.com"
  else if name = "AZURE_OPENAI_API_KEY" then "secret"
  else if name = "AZURE_OPENAI_MODEL" then "gpt-4"
  else ""

/-- An environment that sets the three variables named in the specification
and nothing else. -/
def specEnv (name : String) : String :=
  if name = "ENDPOINT_URL" then "https://example.openai.azure.com"
  else if name = "API_KEY" then "secret"
  else if name = "MODEL_NAME" then "gpt-4"
  else ""

/-- A standard input made of the given lines, each followed by a newline, and
then of `rest`. -/
def feed (lines : List String) (rest : String) : String :=
  lines.foldr (fun s acc => s ++ "\n" ++ acc) rest

/-! ## Basic facts -/

theorem length_line (s : String) : (s ++ "\n").length = s.length + 1 := by
  rw [String.length_append]; rfl

theorem sliceTo_line (s : String) :
    sliceTo (s ++ "\n") (len (s ++ "\n") - 1) = some s := by
  have h : len (s ++ "\n") - 1 = (s.length : Int) := by
    simp only [len, length_line]; push_cast; omega
  rw [h]
  simp [sliceTo, len, length_line]

theorem sliceTo_empty : sliceTo "" (len "" - 1) = none := by
  simp [sliceTo, len]

/-- Every outcome either fails at some stage or yields a decoded response. -/
theorem Outcome.fails_or_parsed (w : Outcome) : w.Fails ∨ ∃ r, w.Parsed r := by
  rcases w with ⟨m, nr, cd, um⟩
  rcases m with e | jb
  · exact Or.inl (Or.inl ⟨e, rfl⟩)
  rcases nr with _ | e
  swap
  · exact Or.inl (Or.inr (Or.inl ⟨e, rfl⟩))
  rcases cd with e | resp
  · exact Or.inl (Or.inr (Or.inr (Or.inl ⟨e, rfl⟩)))
  by_cases hs : resp.StatusCode = 200
  swap
  · exact Or.inl (Or.inr (Or.inr (Or.inr (Or.inl ⟨resp, rfl, hs⟩))))
  rcases hr : resp.readErr with _ | e
  swap
  · exact Or.inl (Or.inr (Or.inr (Or.inr (Or.inr (Or.inl ⟨resp, e, rfl, hr⟩)))))
  rcases um with e | r
  · exact Or.inl (Or.inr (Or.inr (Or.inr (Or.inr (Or.inr ⟨e, rfl⟩)))))
  · exact Or.inr ⟨r, ⟨jb, rfl⟩, rfl, ⟨resp, rfl, hs, hr⟩, rfl⟩

/-- A failing outcome yields no decoded response. -/
theorem Outcome.not_parsed_of_fails (w : Outcome) (hf : w.Fails) (r : ChatResponse) :
    ¬ w.Parsed r := by
  rintro ⟨⟨jb, hm⟩, hn, ⟨resp, hc, hs, hr⟩, hu⟩
  rcases hf with ⟨e, h⟩ | ⟨e, h⟩ | ⟨e, h⟩ | ⟨resp', h, hne⟩ | ⟨resp', e, h, hre⟩ | ⟨e, h⟩
  · rw [hm] at h; cases h
  · rw [hn] at h; cases h
  · rw [hc] at h; cases h
  · rw [hc] at h; cases h; exact hne hs
  · rw [hc] at h; cases h; rw [hr] at hre; cases hre
  · rw [hu] at h; cases h

/-- The loop body on a turn that fails: the user message and the request are
recorded, one line is printed, the transcript gets no assistant message. -/
theorem iteration_of_fails (cfg : Config) (st : State) (s : String) (w : Outcome)
    (hs : s ≠ "exit") (hf : w.Fails) :
    ∃ st', iteration cfg st (s ++ "\n") w = (Flow.next, st') ∧
      st'.chatHistory = st.chatHistory ++ [userMessage s] ∧
      st'.built = st.built ++ [⟨cfg.model, st.chatHistory ++ [userMessage s]⟩] := by
  simp only [iteration, turn, sliceTo_line, if_neg hs]
  rcases hm : w.marshal with e | jb
  · exact ⟨_, rfl, rfl, rfl⟩
  rcases hn : w.newRequest with _ | e
  swap
  · exact ⟨_, rfl, rfl, rfl⟩
  rcases hc : w.clientDo with e | resp
  · exact ⟨_, rfl, rfl, rfl⟩
  by_cases hst : resp.StatusCode = 200
  swap
  · simp only [ne_eq, hst, not_false_eq_true, if_true]
    exact ⟨_, rfl, rfl, rfl⟩
  simp only [ne_eq, hst, not_true_eq_false, if_false]
  rcases hr : resp.readErr with _ | e
  swap
  · exact ⟨_, rfl, rfl, rfl⟩
  rcases hu : w.unmarshal with e | r
  · exact ⟨_, rfl, rfl, rfl⟩
  · exact absurd ⟨⟨jb, hm⟩, hn, ⟨resp, hc, hst, hr⟩, hu⟩ (w.not_parsed_of_fails hf r)

/-- The loop body on a turn whose response is decoded. -/
theorem iteration_of_parsed (cfg : Config) (st : State) (s : String) (w : Outcome)
    (r : ChatResponse) (hs : s ≠ "exit") (hp : w.Parsed r) :
    ∃ jsonBody, w.marshal = .ok jsonBody ∧
      iteration cfg st (s ++ "\n") w =
        match r.Choices with
        | c :: _ =>
          (Flow.next,
            { chatHistory := st.chatHistory ++ [userMessage s, c.Message]
              stdout := st.stdout ++ ["You: ", "Assistant: " ++ c.Message.Content ++ "\n"]
              calls := st.calls ++ [⟨"POST", cfg.url, "application/json", cfg.apiKey, jsonBody⟩]
              built := st.built ++ [⟨cfg.model, st.chatHistory ++ [userMessage s]⟩]
              reads := st.reads + 1 })
        | [] =>
          (Flow.next,
            { chatHistory := st.chatHistory ++ [userMessage s]
              stdout := st.stdout ++ ["You: ", "No response from the assistant.\n"]
              calls := st.calls ++ [⟨"POST", cfg.url, "application/json", cfg.apiKey, jsonBody⟩]
              built := st.built ++ [⟨cfg.model, st.chatHistory ++ [userMessage s]⟩]
              reads := st.reads + 1 }) := by
  obtain ⟨⟨jb, hm⟩, hn, ⟨resp, hc, hst, hr⟩, hu⟩ := hp
  refine ⟨jb, hm, ?_⟩
  simp only [iteration, turn, sliceTo_line, if_neg hs, hm, hn, hc, hst, hr, hu, ne_eq,
    not_true_eq_false, if_false]
  rcases r with ⟨_ | ⟨c, cs⟩⟩
  · simp [State.println, State.print, userMessage]
  · simp [State.print, userMessage]

/-- Iterating the loop body from `st` over lines that are not `exit`: the
loop is still running afterwards. -/
theorem turns_cons_line (cfg : Config) (st : State) (s : String) (w : Outcome)
    (rest : List (String × Outcome)) (st' : State)
    (h : iteration cfg st (s ++ "\n") w = (Flow.next, st')) :
    turns cfg st ((s ++ "\n", w) :: rest) = turns cfg st' rest := by
  simp only [turns, h]

/-- A decoded response is unique. -/
theorem Outcome.parsed_unique (w : Outcome) (r r' : ChatResponse) (h : w.Parsed r)
    (h' : w.Parsed r') : r = r' := by
  have := h.2.2.2.symm.trans h'.2.2.2
  cases this
  rfl

/-- The loop body on any line other than `exit`: the loop continues, exactly
one request value is built, holding the transcript followed by the new user
message, and the transcript becomes the messages of that request, followed by
the message of the first choice when there is one. -/
theorem iteration_line (cfg : Config) (st : State) (s : String) (w : Outcome)
    (hs : s ≠ "exit") :
    ∃ st', iteration cfg st (s ++ "\n") w = (Flow.next, st') ∧
      st'.built = st.built ++ [⟨cfg.model, st.chatHistory ++ [userMessage s]⟩] ∧
      (∀ c cs, w.Parsed ⟨c :: cs⟩ →
        st'.chatHistory = st.chatHistory ++ [userMessage s, c.Message]) ∧
      ((¬ ∃ c cs, w.Parsed ⟨c :: cs⟩) →
        st'.chatHistory = st.chatHistory ++ [userMessage s]) := by
  rcases w.fails_or_parsed with hf | ⟨r, hp⟩
  · obtain ⟨st', h, hh, hb⟩ := iteration_of_fails cfg st s w hs hf
    exact ⟨st', h, hb, fun c cs hp => absurd hp (w.not_parsed_of_fails hf _), fun _ => hh⟩
  · obtain ⟨jb, _, h⟩ := iteration_of_parsed cfg st s w r hs hp
    rcases r with ⟨_ | ⟨c, cs⟩⟩
    · refine ⟨_, h, rfl, ?_, fun _ => rfl⟩
      intro c cs hp'
      have := w.parsed_unique _ _ hp hp'
      cases this
    · refine ⟨_, h, rfl, ?_, ?_⟩
      · intro c' cs' hp'
        have := w.parsed_unique _ _ hp hp'
        cases this
        rfl
      · intro hno
        exact absurd ⟨c, cs, hp⟩ hno

/-- The requests built by a run of turns none of which reads `exit`: there is
one per turn, the first holds the starting transcript and the first line, and
each later one extends the one before it. -/
theorem turns_requests (cfg : Config) (inputs : List (String × Outcome))
    (h : ∀ p ∈ inputs, p.1 ≠ "exit") :
    ∀ st, ∃ st' reqs,
      turns cfg st (inputs.map (fun p => (p.1 ++ "\n", p.2))) = (Flow.next, st') ∧
      st'.built = st.built ++ reqs ∧ reqs.length = inputs.length ∧
      (∀ r p, reqs[0]? = some r → inputs[0]? = some p →
        r.Messages = st.chatHistory ++ [userMessage p.1]) ∧
      (∀ i prev cur pp pc, reqs[i]? = some prev → reqs[i + 1]? = some cur →
        inputs[i]? = some pp → inputs[i + 1]? = some pc →
        (∀ c cs, pp.2.Parsed ⟨c :: cs⟩ →
          cur.Messages = prev.Messages ++ [c.Message, userMessage pc.1]) ∧
        ((¬ ∃ c cs, pp.2.Parsed ⟨c :: cs⟩) →
          cur.Messages = prev.Messages ++ [userMessage pc.1])) := by
  induction inputs with
  | nil =>
    intro st
    refine ⟨st, [], rfl, by simp, rfl, ?_, ?_⟩
    · intro r p hr; simp at hr
    · intro i prev cur pp pc hr; simp at hr
  | cons p rest ih =>
    intro st
    have hp : p.1 ≠ "exit" := h p (List.mem_cons_self _ _)
    obtain ⟨st1, h1, hb1, hyes, hno⟩ := iteration_line cfg st p.1 p.2 hp
    obtain ⟨st2, reqs, h2, hb2, hlen, hfirst, hcons⟩ :=
      ih (fun q hq => h q (List.mem_cons_of_mem _ hq)) st1
    refine ⟨st2, ⟨cfg.model, st.chatHistory ++ [userMessage p.1]⟩ :: reqs, ?_, ?_, ?_, ?_, ?_⟩
    · rw [List.map_cons, turns_cons_line cfg st p.1 p.2 _ st1 h1]
      exact h2
    · rw [hb2, hb1]; simp
    · simp [hlen]
    · intro r q hr hq
      simp only [List.getElem?_cons_zero, Option.some.injEq] at hr hq
      subst hr; subst hq
      rfl
    · intro i prev cur pp pc hprev hcur hpp hpc
      cases i with
      | zero =>
        simp only [List.getElem?_cons_zero, Option.some.injEq, zero_add,
          List.getElem?_cons_succ] at hprev hcur hpp hpc
        subst hprev; subst hpp
        have hm := hfirst cur pc hcur hpc
        constructor
        · intro c cs hpar
          rw [hm, hyes c cs hpar]
          simp
        · intro hnone
          rw [hm, hno hnone]
      | succ j =>
        simp only [List.getElem?_cons_succ] at hprev hcur hpp hpc
        exact hcons j prev cur pp pc hprev hcur hpp hpc

/-! ## The loop as a whole -/

theorem readStringAux_length (l : List Char) :
    (readStringAux l).1.length + (readStringAux l).2.length = l.length := by
  induction l with
  | nil => rfl
  | cons c cs ih =>
    unfold readStringAux
    split
    · simp only [List.length_cons, List.length_nil]
      omega
    · simp only [List.length_cons]
      omega

theorem readStringAux_fst_length_pos (l : List Char) (h : l ≠ []) :
    0 < (readStringAux l).1.length := by
  cases l with
  | nil => exact absurd rfl h
  | cons c cs =>
    unfold readStringAux
    split <;> simp

/-- A read from a non-empty stream consumes at least one byte. -/
theorem readString_rest_lt (stdin : String) (h : stdin.length ≠ 0) :
    (readString stdin).2.length < stdin.length := by
  have hne : stdin.data ≠ [] := by
    intro h0
    apply h
    simp [String.length, h0]
  have h1 := readStringAux_length stdin.data
  have h2 := readStringAux_fst_length_pos stdin.data hne
  simp only [readString, String.length]
  simp only [String.length] at h
  omega

/-- At the end of the stream the read returns the empty string and the slice
of line 53 is out of range. -/
theorem iteration_eof (cfg : Config) (st : State) (stdin : String) (w : Outcome)
    (h : stdin.length = 0) :
    iteration cfg st (readString stdin).1 w =
      (Flow.panic, { st.print "You: " with reads := st.reads + 1 }) := by
  have h0 : stdin.data = [] := List.length_eq_zero.mp h
  have hr : (readString stdin).1 = "" := by
    unfold readString
    rw [h0]
    rfl
  rw [hr]
  simp only [iteration, turn, sliceTo_empty]

/-- The loop ends within `stdin.length + 1` iterations. -/
theorem loop_total (cfg : Config) (world : Nat → Outcome) :
    ∀ (fuel i : Nat) (stdin : String) (st : State), stdin.length < fuel →
      ∃ r, loop cfg world fuel i stdin st = some r := by
  intro fuel
  induction fuel with
  | zero => intro i stdin st h; omega
  | succ n ih =>
    intro i stdin st h
    unfold loop
    by_cases h0 : stdin.length = 0
    · rw [iteration_eof cfg st stdin (world i) h0]
      exact ⟨_, rfl⟩
    · rcases hit : iteration cfg st (readString stdin).1 (world i) with ⟨f, st1⟩
      cases f with
      | next =>
        have := readString_rest_lt stdin h0
        exact ih (i + 1) _ st1 (by omega)
      | stop => exact ⟨_, rfl⟩
      | panic => exact ⟨_, rfl⟩

/-- A property of the state that every iteration preserves holds when the loop
ends. -/
theorem loop_invariant (cfg : Config) (world : Nat → Outcome) (P : State → Prop)
    (hstep : ∀ st u w, P st → P (iteration cfg st u w).2) :
    ∀ (fuel i : Nat) (stdin : String) (st : State) (r : Exit × State), P st →
      loop cfg world fuel i stdin st = some r → P r.2 := by
  intro fuel
  induction fuel with
  | zero => intro i stdin st r _ h; simp [loop] at h
  | succ n ih =>
    intro i stdin st r hP h
    unfold loop at h
    have hs := hstep st (readString stdin).1 (world i) hP
    rcases hit : iteration cfg st (readString stdin).1 (world i) with ⟨f, st1⟩
    rw [hit] at h hs
    cases f with
    | next => exact ih (i + 1) _ st1 r hs h
    | stop =>
      simp only [Option.some.injEq] at h
      subst h
      exact hs
    | panic =>
      simp only [Option.some.injEq] at h
      subst h
      exact hs

/-- Every iteration prints the prompt first, reads once, and only appends to
the output. -/
theorem iteration_grows (cfg : Config) (st : State) (u : String) (w : Outcome) :
    (st.stdout ++ ["You: "]) <+: (iteration cfg st u w).2.stdout ∧
    (iteration cfg st u w).2.reads = st.reads + 1 := by
  simp only [iteration, turn]
  repeat' split
  all_goals
    first
      | exact ⟨List.prefix_refl _, rfl⟩
      | exact ⟨List.prefix_append _ _, rfl⟩

/-- When the loop ends, the prompt has been printed right after the output that
was there when it started, and at least one read has been made. -/
theorem loop_entered (cfg : Config) (world : Nat → Outcome) (fuel i : Nat)
    (stdin : String) (st : State) (r : Exit × State)
    (h : loop cfg world fuel i stdin st = some r) :
    (st.stdout ++ ["You: "]) <+: r.2.stdout ∧ st.reads + 1 ≤ r.2.reads := by
  cases fuel with
  | zero => simp [loop] at h
  | succ n =>
    have hstep : ∀ (s : State) (u : String) (w : Outcome),
        ((st.stdout ++ ["You: "]) <+: s.stdout ∧ st.reads + 1 ≤ s.reads) →
        ((st.stdout ++ ["You: "]) <+: (iteration cfg s u w).2.stdout ∧
          st.reads + 1 ≤ (iteration cfg s u w).2.reads) := by
      intro s u w hs
      obtain ⟨g1, g2⟩ := iteration_grows cfg s u w
      refine ⟨hs.1.trans ((List.prefix_append _ _).trans g1), ?_⟩
      rw [g2]
      omega
    unfold loop at h
    obtain ⟨g1, g2⟩ := iteration_grows cfg st (readString stdin).1 (world i)
    rcases hit : iteration cfg st (readString stdin).1 (world i) with ⟨f, st1⟩
    rw [hit] at h g1 g2
    have hq : (st.stdout ++ ["You: "]) <+: st1.stdout ∧ st.reads + 1 ≤ st1.reads :=
      ⟨g1, by simp only at g2; omega⟩
    cases f with
    | next => exact loop_invariant cfg world _ hstep n (i + 1) _ st1 r hq h
    | stop =>
      simp only [Option.some.injEq] at h
      subst h
      exact hq
    | panic =>
      simp only [Option.some.injEq] at h
      subst h
      exact hq

/-- Every request value carries the configured model, and every call goes to
the configured URL with the configured key. -/
theorem iteration_uses_config (cfg : Config) (st : State) (u : String) (w : Outcome)
    (h : (∀ r ∈ st.built, r.Model = cfg.model) ∧
      (∀ c ∈ st.calls, c.URL = cfg.url ∧ c.ApiKey = cfg.apiKey)) :
    (∀ r ∈ (iteration cfg st u w).2.built, r.Model = cfg.model) ∧
    (∀ c ∈ (iteration cfg st u w).2.calls, c.URL = cfg.url ∧ c.ApiKey = cfg.apiKey) := by
  obtain ⟨hb, hc⟩ := h
  simp only [iteration, turn]
  repeat' split
  all_goals
    simp only [State.print, State.println, State.printlnErr]
    refine ⟨?_, ?_⟩
    · intro r hr
      first
        | exact hb r hr
        | (rcases List.mem_append.1 hr with h1 | h1
           · exact hb r h1
           · rw [List.mem_singleton] at h1; subst h1; rfl)
    · intro c hcm
      first
        | exact hc c hcm
        | (rcases List.mem_append.1 hcm with h1 | h1
           · exact hc c h1
           · rw [List.mem_singleton] at h1; subst h1; exact ⟨rfl, rfl⟩)

/-- Function `main` always ends: the fuel it gives the loop is enough. -/
theorem main_total (env : String → String) (stdin : String) (world : Nat → Outcome) :
    ∃ r, main env stdin world = some r := by
  unfold main
  simp only
  split
  · exact ⟨_, rfl⟩
  · exact loop_total _ world _ 0 stdin initState (Nat.lt_succ_self _)

theorem readStringAux_line (l rest : List Char) (h : '\n' ∉ l) :
    readStringAux (l ++ '\n' :: rest) = (l ++ ['\n'], rest) := by
  induction l with
  | nil => simp [readStringAux]
  | cons c cs ih =>
    have hc : c ≠ '\n' := fun e => h (e ▸ List.mem_cons_self _ _)
    have hcs : '\n' ∉ cs := fun e => h (List.mem_cons_of_mem _ e)
    have e : readStringAux ((c :: cs) ++ '\n' :: rest) =
        (c :: (readStringAux (cs ++ '\n' :: rest)).1,
          (readStringAux (cs ++ '\n' :: rest)).2) := by
      rw [List.cons_append]
      conv_lhs => unfold readStringAux
      rw [if_neg hc]
    rw [e, ih hcs]
    rfl

/-- Reading from a stream that starts with a complete line returns that line
with its newline and leaves the rest. -/
theorem readString_line (s rest : String) (h : '\n' ∉ s.data) :
    readString (s ++ "\n" ++ rest) = (s ++ "\n", rest) := by
  have hd : (s ++ "\n" ++ rest).data = s.data ++ '\n' :: rest.data := by
    simp only [String.data_append, List.append_assoc]
    rfl
  unfold readString
  rw [hd, readStringAux_line _ _ h]
  rfl

/-- The loop on a standard input that starts with complete lines runs the
iterations that `turns` runs on those lines: if they all continue, the loop
goes on from the state they reach, on the rest of the input. -/
theorem loop_runs_turns (cfg : Config) (world : Nat → Outcome) :
    ∀ (inputs : List (String × Outcome)) (fuel i : Nat) (rest : String) (st st' : State),
      (∀ p ∈ inputs, '\n' ∉ p.1.data) →
      (∀ k p, inputs[k]? = some p → world (i + k) = p.2) →
      turns cfg st (inputs.map (fun p => (p.1 ++ "\n", p.2))) = (Flow.next, st') →
      loop cfg world (fuel + inputs.length) i (feed (inputs.map Prod.fst) rest) st =
        loop cfg world fuel (i + inputs.length) rest st' := by
  intro inputs
  induction inputs with
  | nil =>
    intro fuel i rest st st' _ _ h
    simp only [List.map_nil, turns, Prod.mk.injEq, true_and] at h
    subst h
    rfl
  | cons p ps ih =>
    intro fuel i rest st st' hnl hw h
    have hp : '\n' ∉ p.1.data := hnl p (List.mem_cons_self _ _)
    have hw0 : world i = p.2 := hw 0 p (List.getElem?_cons_zero)
    have hfeed : feed ((p :: ps).map Prod.fst) rest =
        p.1 ++ "\n" ++ feed (ps.map Prod.fst) rest := rfl
    rw [hfeed, List.length_cons, ← Nat.add_assoc]
    conv_lhs => unfold loop
    rw [readString_line _ _ hp, hw0]
    simp only [List.map_cons, turns] at h
    rcases hit : iteration cfg st (p.1 ++ "\n") p.2 with ⟨f, st1⟩
    rw [hit] at h
    cases f with
    | next =>
      simp only at h ⊢
      rw [ih fuel (i + 1) rest st1 st' (fun q hq => hnl q (List.mem_cons_of_mem _ hq))
        (fun k q hk => by
          have := hw (k + 1) q (by simpa using hk)
          rw [← this]; congr 1; omega) h]
      have e : i + 1 + ps.length = i + (ps.length + 1) := by omega
      rw [e]
    | stop => simp at h
    | panic => simp at h

/-! ## The claims -/

/-- C5: on a line `s` read with its newline, the loop stops exactly when `s`
is the string `exit`; `Exit`, `EXIT` and `exit ` followed by a blank do not stop
it.  When it stops, the output gains the prompt and the farewell only, no call
is made, no request is built and the transcript is unchanged. -/
theorem exit_terminates_iff (cfg : Config) (st : State) (s : String) (w : Outcome) :
    ((iteration cfg st (s ++ "\n") w).1 = Flow.stop ↔ s = "exit") ∧
    ((iteration cfg st (s ++ "\n") w).1 = Flow.next ↔ s ≠ "exit") ∧
    iteration cfg st ("exit" ++ "\n") w =
      (Flow.stop, { st with
        stdout := st.stdout ++ ["You: ", "Exiting chat. Goodbye!\n"]
        reads := st.reads + 1 }) ∧
    (iteration cfg st ("Exit" ++ "\n") w).1 = Flow.next ∧
    (iteration cfg st ("EXIT" ++ "\n") w).1 = Flow.next ∧
    (iteration cfg st ("exit " ++ "\n") w).1 = Flow.next := by
  have key : ∀ t : String, t ≠ "exit" →
      (iteration cfg st (t ++ "\n") w).1 = Flow.next := by
    intro t ht
    simp only [iteration, turn, sliceTo_line, if_neg ht]
    repeat' split
    all_goals rfl
  have ex : iteration cfg st ("exit" ++ "\n") w =
      (Flow.stop, { st with
        stdout := st.stdout ++ ["You: ", "Exiting chat. Goodbye!\n"]
        reads := st.reads + 1 }) := by
    simp only [iteration, turn, sliceTo_line]
    simp [State.println, State.print]
  refine ⟨?_, ?_, ex, key _ (by decide), key _ (by decide), key _ (by decide)⟩
  · constructor
    · intro h
      by_contra hne
      rw [key s hne] at h
      cases h
    · rintro rfl
      rw [ex]
  · constructor
    · rintro h rfl
      rw [ex] at h
      cases h
    · exact key s

/-- C3: for every transcript and every line `s` other than `exit`, a turn that
fails at any stage continues the loop and leaves the transcript equal to the
transcript before the turn followed by the user message holding `s`. -/
theorem failed_turn_keeps_user_message (cfg : Config) (st : State) (s : String)
    (w : Outcome) (hs : s ≠ "exit") (hf : w.Fails) :
    ∃ st', iteration cfg st (s ++ "\n") w = (Flow.next, st') ∧
      st'.chatHistory = st.chatHistory ++ [{ Role := "user", Content := s }] := by
  obtain ⟨st', h, hh, _⟩ := iteration_of_fails cfg st s w hs hf
  exact ⟨st', h, hh⟩

/-- Witness of C3: status 500 with body `server error` after the line
`Hello`. -/
theorem failed_turn_keeps_user_message_witness :
    "Hello" ≠ "exit" ∧ serverErrorOutcome.Fails ∧
    ∃ st', iteration sampleConfig initState ("Hello" ++ "\n") serverErrorOutcome =
        (Flow.next, st') ∧
      st'.chatHistory = initState.chatHistory ++ [{ Role := "user", Content := "Hello" }] :=
  have hf : serverErrorOutcome.Fails :=
    Or.inr (Or.inr (Or.inr (Or.inl ⟨_, rfl, by decide⟩)))
  ⟨by decide, hf,
    failed_turn_keeps_user_message sampleConfig initState "Hello" serverErrorOutcome
      (by decide) hf⟩

/-- C6: when the response has status 200 and decodes to a choice list with
first element `c`, the turn prints `Assistant: ` followed by the content of the
message of `c`, the transcript ends with that message, and the result is the
same as for the choice list holding `c` alone. -/
theorem first_choice_consumed (cfg : Config) (st : State) (s : String) (w : Outcome)
    (c : Choice) (cs : List Choice) (hs : s ≠ "exit") (hp : w.Parsed ⟨c :: cs⟩) :
    ∃ st', iteration cfg st (s ++ "\n") w = (Flow.next, st') ∧
      st'.stdout = st.stdout ++ ["You: ", "Assistant: " ++ c.Message.Content ++ "\n"] ∧
      st'.chatHistory = st.chatHistory ++ [{ Role := "user", Content := s }, c.Message] ∧
      st'.chatHistory.getLast? = some c.Message ∧
      iteration cfg st (s ++ "\n") { w with unmarshal := .ok ⟨[c]⟩ } = (Flow.next, st') := by
  obtain ⟨jb, hm, h⟩ := iteration_of_parsed cfg st s w _ hs hp
  have hp' : Outcome.Parsed { w with unmarshal := .ok ⟨[c]⟩ } ⟨[c]⟩ :=
    ⟨hp.1, hp.2.1, hp.2.2.1, rfl⟩
  obtain ⟨jb', hm', h'⟩ := iteration_of_parsed cfg st s _ _ hs hp'
  have hj : jb' = jb := by
    have : (Except.ok jb' : Except String String) = Except.ok jb := by rw [← hm', ← hm]
    cases this
    rfl
  subst hj
  refine ⟨_, h, rfl, rfl, ?_, h'⟩
  simp [userMessage]

/-- Witness of C6, the example of the specification: the body decoding to the
single assistant message `Hi` after the line `Hello`. -/
theorem first_choice_consumed_witness :
    "Hello" ≠ "exit" ∧
    hiOutcome.Parsed ⟨[{ Message := { Role := "assistant", Content := "Hi" } }]⟩ ∧
    ∃ st', iteration sampleConfig initState ("Hello" ++ "\n") hiOutcome = (Flow.next, st') ∧
      st'.stdout = initState.stdout ++ ["You: ", "Assistant: " ++ "Hi" ++ "\n"] ∧
      st'.chatHistory = initState.chatHistory ++
        [{ Role := "user", Content := "Hello" }, { Role := "assistant", Content := "Hi" }] ∧
      st'.chatHistory.getLast? = some { Role := "assistant", Content := "Hi" } ∧
      iteration sampleConfig initState ("Hello" ++ "\n")
        { hiOutcome with
          unmarshal := .ok ⟨[{ Message := { Role := "assistant", Content := "Hi" } }]⟩ } =
        (Flow.next, st') :=
  have hp : hiOutcome.Parsed ⟨[{ Message := { Role := "assistant", Content := "Hi" } }]⟩ :=
    ⟨⟨_, rfl⟩, rfl, ⟨_, rfl, rfl, rfl⟩, rfl⟩
  ⟨by decide, hp,
    first_choice_consumed sampleConfig initState "Hello" hiOutcome
      { Message := { Role := "assistant", Content := "Hi" } } [] (by decide) hp⟩

/-- C7: when the response has status 200 and decodes to an empty choice list,
the turn prints, after the prompt, exactly the line `No response from the
assistant.`, the transcript gains the user message only, and the loop
continues. -/
theorem empty_choices_no_reply (cfg : Config) (st : State) (s : String) (w : Outcome)
    (hs : s ≠ "exit") (hp : w.Parsed ⟨[]⟩) :
    ∃ st', iteration cfg st (s ++ "\n") w = (Flow.next, st') ∧
      st'.stdout = st.stdout ++ ["You: ", "No response from the assistant.\n"] ∧
      st'.chatHistory = st.chatHistory ++ [{ Role := "user", Content := s }] := by
  obtain ⟨jb, _, h⟩ := iteration_of_parsed cfg st s w _ hs hp
  exact ⟨_, h, rfl, rfl⟩

/-- Witness of C7: a response with status 200 whose body decodes to no
choice. -/
theorem empty_choices_no_reply_witness :
    "Hello" ≠ "exit" ∧
    (replyOutcome "\x7b\"choices\":[]\x7d" ⟨[]⟩).Parsed ⟨[]⟩ ∧
    ∃ st', iteration sampleConfig initState ("Hello" ++ "\n")
        (replyOutcome "\x7b\"choices\":[]\x7d" ⟨[]⟩) = (Flow.next, st') ∧
      st'.stdout = initState.stdout ++ ["You: ", "No response from the assistant.\n"] ∧
      st'.chatHistory = initState.chatHistory ++ [{ Role := "user", Content := "Hello" }] :=
  have hp : (replyOutcome "\x7b\"choices\":[]\x7d" ⟨[]⟩).Parsed ⟨[]⟩ :=
    ⟨⟨_, rfl⟩, rfl, ⟨_, rfl, rfl, rfl⟩, rfl⟩
  ⟨by decide, hp,
    empty_choices_no_reply sampleConfig initState "Hello" _ (by decide) hp⟩

/-- C1: starting from the transcript that holds the system message only,
after `k` turns whose lines are not `exit` and which all succeed (every stage
succeeds, status 200, the body decodes to a non-empty choice list) the loop is
still running and the transcript has length `1 + 2 * k`. -/
theorem transcript_length_after_turns (cfg : Config) (inputs : List (String × Outcome))
    (h : ∀ p ∈ inputs, p.1 ≠ "exit" ∧ ∃ c cs, p.2.Parsed ⟨c :: cs⟩) :
    ∃ st, turns cfg initState (inputs.map (fun p => (p.1 ++ "\n", p.2))) = (Flow.next, st) ∧
      st.chatHistory.length = 1 + 2 * inputs.length := by
  have aux : ∀ (l : List (String × Outcome)),
      (∀ p ∈ l, p.1 ≠ "exit" ∧ ∃ c cs, p.2.Parsed ⟨c :: cs⟩) →
      ∀ st0, ∃ st, turns cfg st0 (l.map (fun p => (p.1 ++ "\n", p.2))) = (Flow.next, st) ∧
        st.chatHistory.length = st0.chatHistory.length + 2 * l.length := by
    intro l
    induction l with
    | nil => intro _ st0; exact ⟨st0, rfl, rfl⟩
    | cons p rest ih =>
      intro hl st0
      obtain ⟨hp, c, cs, hpar⟩ := hl p (List.mem_cons_self _ _)
      obtain ⟨st1, h1, _, hyes, _⟩ := iteration_line cfg st0 p.1 p.2 hp
      obtain ⟨st2, h2, hlen⟩ := ih (fun q hq => hl q (List.mem_cons_of_mem _ hq)) st1
      refine ⟨st2, ?_, ?_⟩
      · rw [List.map_cons, turns_cons_line cfg st0 p.1 p.2 _ st1 h1]
        exact h2
      · rw [hlen, hyes c cs hpar]
        simp only [List.length_append, List.length_cons, List.length_nil]
        omega
  obtain ⟨st, hst, hlen⟩ := aux inputs h initState
  refine ⟨st, hst, ?_⟩
  rw [hlen]
  simp only [initState, List.length_cons, List.length_nil]

/-- Witness of C1: two successful turns give a transcript of length 5. -/
theorem transcript_length_after_turns_witness :
    (∀ p ∈ [("Hello", hiOutcome), ("Again", hiOutcome)],
      p.1 ≠ "exit" ∧ ∃ c cs, p.2.Parsed ⟨c :: cs⟩) ∧
    ∃ st, turns sampleConfig initState
        ([("Hello", hiOutcome), ("Again", hiOutcome)].map (fun p => (p.1 ++ "\n", p.2))) =
          (Flow.next, st) ∧
      st.chatHistory.length = 1 + 2 * [("Hello", hiOutcome), ("Again", hiOutcome)].length :=
  have hp : ∃ c cs, hiOutcome.Parsed ⟨c :: cs⟩ :=
    ⟨_, _, ⟨_, rfl⟩, rfl, ⟨_, rfl, rfl, rfl⟩, rfl⟩
  have hall : ∀ p ∈ [("Hello", hiOutcome), ("Again", hiOutcome)],
      p.1 ≠ "exit" ∧ ∃ c cs, p.2.Parsed ⟨c :: cs⟩ := by
    intro p hmem
    simp only [List.mem_cons, List.mem_singleton, List.mem_nil_iff, or_false] at hmem
    rcases hmem with rfl | rfl
    · exact ⟨by decide, hp⟩
    · exact ⟨by decide, hp⟩
  ⟨hall, transcript_length_after_turns sampleConfig _ hall⟩

/-- C2: in a run of turns none of which reads `exit`, one request value is
built per turn, and for every two consecutive turns (positions `i` and `i + 1`,
that is requests `n - 1` and `n` with `n = i + 2`) the message list of the later
request is the message list of the earlier one, followed by the message of the
first choice exactly when the earlier turn succeeded with a non-empty choice
list, followed by the user message holding the later line.  The earlier list
is a strictly shorter initial segment of the later one. -/
theorem request_extends_previous (cfg : Config) (inputs : List (String × Outcome))
    (h : ∀ p ∈ inputs, p.1 ≠ "exit") :
    ∃ st, turns cfg initState (inputs.map (fun p => (p.1 ++ "\n", p.2))) = (Flow.next, st) ∧
      st.built.length = inputs.length ∧
      ∀ i, i + 1 < inputs.length →
        ∃ prev cur pp pc, st.built[i]? = some prev ∧ st.built[i + 1]? = some cur ∧
          inputs[i]? = some pp ∧ inputs[i + 1]? = some pc ∧
          (∀ c cs, pp.2.Parsed ⟨c :: cs⟩ →
            cur.Messages = prev.Messages ++ [c.Message, { Role := "user", Content := pc.1 }]) ∧
          ((¬ ∃ c cs, pp.2.Parsed ⟨c :: cs⟩) →
            cur.Messages = prev.Messages ++ [{ Role := "user", Content := pc.1 }]) ∧
          prev.Messages <+: cur.Messages ∧
          prev.Messages.length < cur.Messages.length := by
  obtain ⟨st, reqs, hrun, hb, hlen, _, hcons⟩ := turns_requests cfg inputs h initState
  have hb' : st.built = reqs := by rw [hb]; rfl
  refine ⟨st, hrun, by rw [hb', hlen], ?_⟩
  intro i hi
  have hi0 : i < inputs.length := by omega
  have hr0 : i < reqs.length := by omega
  have hr1 : i + 1 < reqs.length := by omega
  have e1 : reqs[i]? = some reqs[i] := List.getElem?_eq_getElem _
  have e2 : reqs[i + 1]? = some reqs[i + 1] := List.getElem?_eq_getElem _
  have e3 : inputs[i]? = some inputs[i] := List.getElem?_eq_getElem _
  have e4 : inputs[i + 1]? = some inputs[i + 1] := List.getElem?_eq_getElem _
  obtain ⟨hyes, hno⟩ := hcons i _ _ _ _ e1 e2 e3 e4
  refine ⟨_, _, _, _, hb' ▸ e1, hb' ▸ e2, e3, e4, hyes, hno, ?_, ?_⟩
  · by_cases hex : ∃ c cs, inputs[i].2.Parsed ⟨c :: cs⟩
    · obtain ⟨c, cs, hpar⟩ := hex
      rw [hyes c cs hpar]
      exact List.prefix_append _ _
    · rw [hno hex]
      exact List.prefix_append _ _
  · by_cases hex : ∃ c cs, inputs[i].2.Parsed ⟨c :: cs⟩
    · obtain ⟨c, cs, hpar⟩ := hex
      rw [hyes c cs hpar]
      simp
    · rw [hno hex]
      simp

/-- Witness of C2: a failed turn followed by two successful ones. -/
theorem request_extends_previous_witness :
    (∀ p ∈ [("Hello", serverErrorOutcome), ("Again", hiOutcome), ("More", hiOutcome)],
      p.1 ≠ "exit") ∧
    ∃ st, turns sampleConfig initState
        ([("Hello", serverErrorOutcome), ("Again", hiOutcome), ("More", hiOutcome)].map
          (fun p => (p.1 ++ "\n", p.2))) = (Flow.next, st) ∧
      st.built.length =
        [("Hello", serverErrorOutcome), ("Again", hiOutcome), ("More", hiOutcome)].length ∧
      ∀ i, i + 1 <
          [("Hello", serverErrorOutcome), ("Again", hiOutcome), ("More", hiOutcome)].length →
        ∃ prev cur pp pc, st.built[i]? = some prev ∧ st.built[i + 1]? = some cur ∧
          [("Hello", serverErrorOutcome), ("Again", hiOutcome), ("More", hiOutcome)][i]? =
            some pp ∧
          [("Hello", serverErrorOutcome), ("Again", hiOutcome), ("More", hiOutcome)][i + 1]? =
            some pc ∧
          (∀ c cs, pp.2.Parsed ⟨c :: cs⟩ →
            cur.Messages = prev.Messages ++ [c.Message, { Role := "user", Content := pc.1 }]) ∧
          ((¬ ∃ c cs, pp.2.Parsed ⟨c :: cs⟩) →
            cur.Messages = prev.Messages ++ [{ Role := "user", Content := pc.1 }]) ∧
          prev.Messages <+: cur.Messages ∧
          prev.Messages.length < cur.Messages.length :=
  have hall : ∀ p ∈ [("Hello", serverErrorOutcome), ("Again", hiOutcome), ("More", hiOutcome)],
      p.1 ≠ "exit" := by
    intro p hmem
    simp only [List.mem_cons, List.mem_singleton, List.mem_nil_iff, or_false] at hmem
    rcases hmem with rfl | rfl | rfl <;> decide
  ⟨hall, request_extends_previous sampleConfig _ hall⟩

/-- The run of the previous witness evaluated: the three message lists built. -/
theorem sample_run_requests :
    (turns sampleConfig initState
        [("Hello\n", serverErrorOutcome), ("Again\n", hiOutcome), ("More\n", hiOutcome)]).2.built.map
      ChatRequest.Messages =
    [[systemMessage, userMessage "Hello"],
     [systemMessage, userMessage "Hello", userMessage "Again"],
     [systemMessage, userMessage "Hello", userMessage "Again",
       { Role := "assistant", Content := "Hi" }, userMessage "More"]] := by
  rfl

/-- C4: when one of the three configuration values is empty, `main` prints the
diagnostic and returns: that line is the whole output, no call is made and
nothing is read.  When all three are non-empty, `main` ends with an output that
starts with the banner and the first prompt, and it has read from standard
input at least once. -/
theorem config_check (env : String → String) (stdin : String) (world : Nat → Outcome) :
    (((loadConfig env).endpoint = "" ∨ (loadConfig env).apiKey = "" ∨
        (loadConfig env).model = "") →
      main env stdin world = some (Exit.returned,
        { chatHistory := [], stdout := [configDiagnostic ++ "\n"], calls := [], built := []
          reads := 0 })) ∧
    (((loadConfig env).endpoint ≠ "" ∧ (loadConfig env).apiKey ≠ "" ∧
        (loadConfig env).model ≠ "") →
      ∃ ex st, main env stdin world = some (ex, st) ∧
        [banner ++ "\n", "You: "] <+: st.stdout ∧ 1 ≤ st.reads) := by
  constructor
  · intro h
    unfold main
    simp only
    rw [if_pos h]
  · rintro ⟨h1, h2, h3⟩
    obtain ⟨⟨ex, st⟩, hr⟩ := main_total env stdin world
    refine ⟨ex, st, hr, ?_⟩
    unfold main at hr
    simp only at hr
    rw [if_neg (by simp only [not_or]; exact ⟨h1, h2, h3⟩)] at hr
    have := loop_entered _ _ _ _ _ _ _ hr
    simpa [initState] using this

/-- Witness of C4: an empty API key stops the program before the loop, and a
full configuration enters it. -/
theorem config_check_witness :
    main (fun name => if name = "AZURE_OPENAI_API_KEY" then "" else "x") "Hello\n"
        (fun _ => hiOutcome) =
      some (Exit.returned,
        { chatHistory := [], stdout := [configDiagnostic ++ "\n"], calls := [], built := []
          reads := 0 }) ∧
    ∃ ex st, main azureEnv "Hello\n" (fun _ => hiOutcome) = some (ex, st) ∧
      [banner ++ "\n", "You: "] <+: st.stdout ∧ 1 ≤ st.reads :=
  ⟨(config_check _ "Hello\n" (fun _ => hiOutcome)).1 (Or.inr (Or.inl rfl)),
   (config_check azureEnv "Hello\n" (fun _ => hiOutcome)).2
     ⟨by decide, by decide, by decide⟩⟩

/-- C8, as stated, fails: with the variables `ENDPOINT_URL`, `API_KEY` and
`MODEL_NAME` set and nothing else, `main` prints the diagnostic and returns
without entering the loop. -/
theorem spec_variable_names_not_read :
    specEnv "ENDPOINT_URL" ≠ "" ∧ specEnv "API_KEY" ≠ "" ∧ specEnv "MODEL_NAME" ≠ "" ∧
    main specEnv "Hello\n" (fun _ => hiOutcome) =
      some (Exit.returned,
        { chatHistory := [], stdout := [configDiagnostic ++ "\n"], calls := [], built := []
          reads := 0 }) := by
  refine ⟨by decide, by decide, by decide, ?_⟩
  rfl

/-- C8 amended: the configuration is read from `AZURE_OPENAI_ENDPOINT`,
`AZURE_OPENAI_API_KEY` and `AZURE_OPENAI_MODEL`.  When the three are non-empty,
`main` runs the loop with those values, and the value of `AZURE_OPENAI_MODEL`
is the model of every request value built and is in the path of the URL of
every call, whose key is the value of `AZURE_OPENAI_API_KEY`. -/
theorem config_from_azure_variables (env : String → String) (stdin : String)
    (world : Nat → Outcome) (h1 : env "AZURE_OPENAI_ENDPOINT" ≠ "")
    (h2 : env "AZURE_OPENAI_API_KEY" ≠ "") (h3 : env "AZURE_OPENAI_MODEL" ≠ "") :
    main env stdin world =
      loop
        { endpoint := env "AZURE_OPENAI_ENDPOINT", apiKey := env "AZURE_OPENAI_API_KEY"
          model := env "AZURE_OPENAI_MODEL"
          url := env "AZURE_OPENAI_ENDPOINT" ++ "/openai/deployments/" ++
            env "AZURE_OPENAI_MODEL" ++ "/chat/completions?api-version=2023-06-01-preview" }
        world (stdin.length + 1) 0 stdin initState ∧
    ∃ ex st, main env stdin world = some (ex, st) ∧
      [banner ++ "\n", "You: "] <+: st.stdout ∧ 1 ≤ st.reads ∧
      (∀ r ∈ st.built, r.Model = env "AZURE_OPENAI_MODEL") ∧
      (∀ c ∈ st.calls,
        c.URL = env "AZURE_OPENAI_ENDPOINT" ++ "/openai/deployments/" ++
          env "AZURE_OPENAI_MODEL" ++ "/chat/completions?api-version=2023-06-01-preview" ∧
        c.ApiKey = env "AZURE_OPENAI_API_KEY") := by
  have hm : main env stdin world =
      loop (loadConfig env) world (stdin.length + 1) 0 stdin initState := by
    unfold main
    simp only
    rw [if_neg]
    simp only [loadConfig, not_or]
    exact ⟨h1, h2, h3⟩
  refine ⟨hm, ?_⟩
  obtain ⟨⟨ex, st⟩, hr⟩ := main_total env stdin world
  refine ⟨ex, st, hr, ?_⟩
  rw [hm] at hr
  have he := loop_entered _ _ _ _ _ _ _ hr
  have hi := loop_invariant (loadConfig env) world
    (fun s => (∀ r ∈ s.built, r.Model = (loadConfig env).model) ∧
      (∀ c ∈ s.calls, c.URL = (loadConfig env).url ∧ c.ApiKey = (loadConfig env).apiKey))
    (fun s u w hs => iteration_uses_config (loadConfig env) s u w hs)
    _ _ _ _ _ ⟨by simp [initState], by simp [initState]⟩ hr
  exact ⟨by simpa [initState] using he.1, by simpa [initState] using he.2, hi.1, hi.2⟩

/-- Witness of C8 amended: the three variables set, one line of input. -/
theorem config_from_azure_variables_witness :
    azureEnv "AZURE_OPENAI_ENDPOINT" ≠ "" ∧ azureEnv "AZURE_OPENAI_API_KEY" ≠ "" ∧
    azureEnv "AZURE_OPENAI_MODEL" ≠ "" ∧
    (main azureEnv "Hello\n" (fun _ => hiOutcome) =
      loop
        { endpoint := azureEnv "AZURE_OPENAI_ENDPOINT"
          apiKey := azureEnv "AZURE_OPENAI_API_KEY"
          model := azureEnv "AZURE_OPENAI_MODEL"
          url := azureEnv "AZURE_OPENAI_ENDPOINT" ++ "/openai/deployments/" ++
            azureEnv "AZURE_OPENAI_MODEL" ++
            "/chat/completions?api-version=2023-06-01-preview" }
        (fun _ => hiOutcome) ("Hello\n".length + 1) 0 "Hello\n" initState ∧
    ∃ ex st, main azureEnv "Hello\n" (fun _ => hiOutcome) = some (ex, st) ∧
      [banner ++ "\n", "You: "] <+: st.stdout ∧ 1 ≤ st.reads ∧
      (∀ r ∈ st.built, r.Model = azureEnv "AZURE_OPENAI_MODEL") ∧
      (∀ c ∈ st.calls,
        c.URL = azureEnv "AZURE_OPENAI_ENDPOINT" ++ "/openai/deployments/" ++
          azureEnv "AZURE_OPENAI_MODEL" ++
          "/chat/completions?api-version=2023-06-01-preview" ∧
        c.ApiKey = azureEnv "AZURE_OPENAI_API_KEY")) :=
  ⟨by decide, by decide, by decide,
    config_from_azure_variables azureEnv "Hello\n" (fun _ => hiOutcome)
      (by decide) (by decide) (by decide)⟩

/-- The run of the previous witness evaluated: one request with model `gpt-4`
is built and one call is made, to the deployment `gpt-4`. -/
theorem sample_run_config :
    (main azureEnv "Hello\n" (fun _ => hiOutcome)).map
        (fun r => (r.2.built.map ChatRequest.Model, r.2.calls.map HttpCall.URL)) =
      some (["gpt-4"],
        ["https://example.openai.azure.com/openai/deployments/gpt-4/chat/completions?api-version=2023-06-01-preview"]) := by
  rfl

/-- C9 fails on the code: with the configuration set, on an empty standard
input the first read returns the empty string and the slice of line 53 panics;
on the input `exit` without a newline the last byte is cut off, the text `exi`
is sent as a user message and the next read panics; and a stream of complete
lines that has no `exit` line panics after its last line. -/
theorem eof_panics (world : Nat → Outcome) :
    main azureEnv "" world =
      some (Exit.panicked,
        { initState with stdout := [banner ++ "\n", "You: "], reads := 1 }) ∧
    (main azureEnv "exit" (fun _ => hiOutcome)).map
        (fun r => (r.1, r.2.chatHistory)) =
      some (Exit.panicked,
        [systemMessage, userMessage "exi", { Role := "assistant", Content := "Hi" }]) ∧
    (main azureEnv "Hello\n" (fun _ => hiOutcome)).map
        (fun r => (r.1, r.2.chatHistory)) =
      some (Exit.panicked,
        [systemMessage, userMessage "Hello", { Role := "assistant", Content := "Hi" }]) := by
  refine ⟨rfl, rfl, rfl⟩

/-- C10, as stated, fails: the message of the first choice is appended as the
server sent it, so a response whose first choice has role `tool` leaves a
message with that role in a transcript whose roles were all valid. -/
theorem role_not_validated :
    (∀ m ∈ initState.chatHistory, ValidRole m.Role) ∧
    (iteration sampleConfig initState ("Hello" ++ "\n") toolOutcome).2.chatHistory =
      [systemMessage, userMessage "Hello", { Role := "tool", Content := "Hi" }] ∧
    ¬ ∀ m ∈ (iteration sampleConfig initState ("Hello" ++ "\n") toolOutcome).2.chatHistory,
      ValidRole m.Role := by
  have h : (iteration sampleConfig initState ("Hello" ++ "\n") toolOutcome).2.chatHistory =
      [systemMessage, userMessage "Hello", { Role := "tool", Content := "Hi" }] := rfl
  refine ⟨by decide, h, ?_⟩
  rw [h]
  decide

/-- C10 amended: the transcript starts as the single system message, whose role
is valid, and every iteration of the loop, for every string read and every
outcome, keeps all roles in the transcript valid provided the first choice of a
decoded response carries a valid role; the messages the program itself creates
have role `system` or `user`, and the message appended on a successful turn has
the role the server sent. -/
theorem roles_preserved (cfg : Config) (st : State) (u : String) (w : Outcome)
    (hst : ∀ m ∈ st.chatHistory, ValidRole m.Role)
    (hw : ∀ r c cs, w.unmarshal = .ok r → r.Choices = c :: cs → ValidRole c.Message.Role) :
    initState.chatHistory = [{ Role := "system", Content := "You are a helpful assistant." }] ∧
    (∀ m ∈ initState.chatHistory, ValidRole m.Role) ∧
    ∀ m ∈ (iteration cfg st u w).2.chatHistory, ValidRole m.Role := by
  refine ⟨rfl, by decide, ?_⟩
  have hu : ∀ s : String, ValidRole (ChatMessage.mk "user" s).Role := fun _ => Or.inr (Or.inl rfl)
  simp only [iteration, turn]
  repeat' split
  all_goals
    intro m hm
    simp only [State.print, State.println, State.printlnErr, List.mem_append,
      List.mem_singleton] at hm
  all_goals
    first
      | exact hst m hm
      | (rcases hm with hm | hm
         · exact hst m hm
         · subst hm; exact hu _)
      | (rcases hm with (hm | hm) | hm
         · exact hst m hm
         · subst hm; exact hu _
         · subst hm
           apply hw <;> assumption)

/-- Witness of C10 amended: the example response, whose role is `assistant`. -/
theorem roles_preserved_witness :
    (∀ m ∈ initState.chatHistory, ValidRole m.Role) ∧
    (∀ r c cs, hiOutcome.unmarshal = .ok r → r.Choices = c :: cs →
      ValidRole c.Message.Role) ∧
    (initState.chatHistory =
      [{ Role := "system", Content := "You are a helpful assistant." }] ∧
    (∀ m ∈ initState.chatHistory, ValidRole m.Role) ∧
    ∀ m ∈ (iteration sampleConfig initState "Hello\n" hiOutcome).2.chatHistory,
      ValidRole m.Role) :=
  have hw : ∀ r c cs, hiOutcome.unmarshal = .ok r → r.Choices = c :: cs →
      ValidRole c.Message.Role := by
    intro r c cs hr hc
    have : r = ⟨[{ Message := { Role := "assistant", Content := "Hi" } }]⟩ := by
      simp only [hiOutcome, replyOutcome, Except.ok.injEq] at hr
      exact hr.symm
    subst this
    simp only [List.cons.injEq] at hc
    obtain ⟨rfl, _⟩ := hc
    exact Or.inr (Or.inr rfl)
  ⟨by decide, hw, roles_preserved sampleConfig initState "Hello\n" hiOutcome (by decide) hw⟩

end AzureChat
